import Mathlib

/-!
Verification of the `millken/downloader` HTTP forwarding proxy core:
a shallow embedding of the buffer pool (`core/buffer_pool.go`) and the
proxy engine / request adapter (`proxy.go`), with theorems settling the
specification's claims about them.
-/

namespace Core

/-- A `bytes.Buffer`, abstracted to its logical length and underlying
capacity.  `bytes.NewBuffer(make([]byte, size))` yields length `size`
and capacity `size`; `Reset` truncates the logical length to zero and
keeps the capacity. -/
structure Buffer where
  len : Nat
  cap : Nat
deriving DecidableEq, Repr

/-- Go `(*bytes.Buffer).Reset()`: truncate to zero logical length, keep capacity. -/
def Buffer.reset (b : Buffer) : Buffer := { b with len := 0 }

/-- The `makeBuffer(size)` function from `core/buffer_pool.go`:
`bytes.NewBuffer(make([]byte, size))` followed by `Reset`. -/
def makeBuffer (size : Nat) : Buffer := (Buffer.mk size size).reset

/-- The `BufferPool` type: a `sync.Pool` of `*bytes.Buffer`, with the size passed
to `NewBufferPool` recorded so that the `New` fallback can allocate. -/
structure BufferPool where
  size : Nat
  pool : List Buffer
deriving DecidableEq, Repr

/-- Go `NewBufferPool(size)`: empty pool whose `New` function is `makeBuffer size`. -/
def NewBufferPool (size : Nat) : BufferPool := ⟨size, []⟩

/-- Go `(*BufferPool).Get()`: take a buffer from the pool, or fall back to
`makeBuffer size` when the pool is empty.  Returns the buffer and the
remaining pool state. -/
def BufferPool.Get (p : BufferPool) : Buffer × BufferPool :=
  match p.pool with
  | [] => (makeBuffer p.size, p)
  | b :: rest => (b, ⟨p.size, rest⟩)

/-- Go `(*BufferPool).Put(b)`: no-op when `b` is nil; otherwise `b.Reset()`
then return it to the pool. -/
def BufferPool.Put (p : BufferPool) (b : Option Buffer) : BufferPool :=
  match b with
  | none => p
  | some b => ⟨p.size, b.reset :: p.pool⟩

/-- The four process-wide size classes of `core/buffer_pool.go`. -/
def BufferPool1k : BufferPool := NewBufferPool 1024

def BufferPool2k : BufferPool := NewBufferPool 2048

def BufferPool4k : BufferPool := NewBufferPool 4096

def BufferPool8k : BufferPool := NewBufferPool 8192

/-- One pool operation in an interleaving of acquires and releases. -/
inductive PoolOp where
  | get
  | put (b : Option Buffer)
deriving DecidableEq, Repr

/-- Run a sequence of pool operations, collecting the buffer returned by
each `get` as well as the final pool state. -/
def runPool (p : BufferPool) : List PoolOp → List Buffer × BufferPool
  | [] => ([], p)
  | PoolOp.get :: ops =>
      let r := p.Get
      let rest := runPool r.2 ops
      (r.1 :: rest.1, rest.2)
  | PoolOp.put b :: ops => runPool (p.Put b) ops

/-- Pool invariant: every buffer held by the pool has zero logical length. -/
def poolZeroed (p : BufferPool) : Prop := ∀ b ∈ p.pool, b.len = 0

theorem poolZeroed_new (size : Nat) : poolZeroed (NewBufferPool size) := by
  intro b hb
  simp [NewBufferPool] at hb

theorem poolZeroed_put (p : BufferPool) (hp : poolZeroed p) (b : Option Buffer) :
    poolZeroed (p.Put b) := by
  cases b with
  | none => exact hp
  | some b =>
      intro c hc
      simp [BufferPool.Put] at hc
      rcases hc with hc | hc
      · simp [hc, Buffer.reset]
      · exact hp c hc

theorem get_len_zero (p : BufferPool) (hp : poolZeroed p) : (p.Get).1.len = 0 := by
  unfold BufferPool.Get
  cases h : p.pool with
  | nil => simp [makeBuffer, Buffer.reset]
  | cons b rest =>
      simp only
      exact hp b (by simp [h])

theorem poolZeroed_get (p : BufferPool) (hp : poolZeroed p) : poolZeroed (p.Get).2 := by
  unfold BufferPool.Get
  cases h : p.pool with
  | nil => simpa [h] using hp
  | cons b rest =>
      intro c hc
      simp at hc
      exact hp c (by simp [h, hc])

theorem runPool_len_zero (ops : List PoolOp) (p : BufferPool) (hp : poolZeroed p) :
    (∀ b ∈ (runPool p ops).1, b.len = 0) ∧ poolZeroed (runPool p ops).2 := by
  induction ops generalizing p with
  | nil => exact ⟨by intro b hb; simp [runPool] at hb, hp⟩
  | cons op ops ih =>
      cases op with
      | get =>
          have h1 := get_len_zero p hp
          have h2 := poolZeroed_get p hp
          have hrest := ih (p.Get).2 h2
          refine ⟨?_, hrest.2⟩
          intro b hb
          simp [runPool] at hb
          rcases hb with hb | hb
          · simpa [hb] using h1
          · exact hrest.1 b hb
      | put b =>
          have hrest := ih (p.Put b) (poolZeroed_put p hp b)
          exact ⟨fun c hc => hrest.1 c (by simpa [runPool] using hc), hrest.2⟩

end Core

namespace Proxy

/-- The pieces of `url.URL` the proxy touches: scheme, authority
(host:port) and the path+query rendered by `URL.RequestURI()`. -/
structure URL where
  scheme : String
  host : String
  pathQuery : String
deriving DecidableEq, Repr

/-- An inbound `*http.Request`, abstracted to the fields the proxy reads
or writes.  `tls` is `true` when `req.TLS != nil`; `userAgent`,
`contentType` and `connectionHeader` stand for `req.UserAgent()`,
`req.Header.Get("Content-Type")` and `req.Header.Get("Connection")`. -/
structure Request where
  host : String
  url : URL
  requestURI : String
  tls : Bool
  method : String
  userAgent : String
  contentType : String
  connectionHeader : String
deriving DecidableEq, Repr

/-- Outcome of `modifyRequest`: the adapted clone, the wrapped resolver
error returned to the caller, or a runtime panic (index out of range). -/
inductive AdaptResult where
  | ok (req : Request)
  | err (msg : String)
  | panic
deriving DecidableEq, Repr

/-- The error text built by `fmt.Errorf("domain %s resolver err: %s", ...)`. -/
def resolverErrMsg (host errText : String) : String :=
  "domain " ++ host ++ " resolver err: " ++ errText

/-- Go `(*HttpProxy).modifyRequest`: clone the inbound request, query the
resolver (`p.resolver.Get(req.Host)`, given here as `resolve`), wrap a
resolver error, set the scheme from `req.TLS`, overwrite `req.URL.Host`
with `ips[0]` (a panic when `ips` is empty), and clear `RequestURI`. -/
def modifyRequest (r : Request) (resolve : Except String (List String)) : AdaptResult :=
  match resolve with
  | .error e => .err (resolverErrMsg r.host e)
  | .ok ips =>
      let scheme := if r.tls then "https" else "http"
      match ips with
      | [] => .panic
      | ip :: _ =>
          .ok { r with
                  url := { r.url with scheme := scheme, host := ip },
                  requestURI := "" }

/-- An upstream `*http.Response`, abstracted to its header map and raw
body bytes.  Each header key carries its ordered list of values. -/
structure UpstreamResponse where
  headers : List (String × List String)
  body : List Nat
deriving DecidableEq, Repr

/-- Go `http.Header.Get(k)`: first value of the key, or `""` when absent. -/
def headerGet (hs : List (String × List String)) (k : String) : String :=
  match hs.lookup k with
  | some (v :: _) => v
  | _ => ""

/-- The header re-emission step for one key: `if len(v) < 2 { Set(k, v[0]) }
else { Set(k, strings.Join(v, "")) }`.  `none` is the index-out-of-range
panic on `v[0]` when `v` is empty. -/
def emitHeaderValue (v : List String) : Option String :=
  if v.length < 2 then v[0]? else some (String.join v)

/-- The whole header-copy loop; `none` when any key's value list makes
`emitHeaderValue` panic. -/
def emitHeaders (hs : List (String × List String)) :
    Option (List (String × String)) :=
  hs.mapM (fun kv => (emitHeaderValue kv.2).map (fun v => (kv.1, v)))

/-- The `io.Reader` stored in the exchange context's `ResponseBody`:
the buffer itself (default branch), a brotli or gzip wrapper over the
buffered bytes, or the nil reader left when `gzip.NewReader` fails. -/
inductive BodyReader where
  | buffer (data : List Nat)
  | brotli (data : List Nat)
  | gzip (data : List Nat)
  | nilReader
deriving DecidableEq, Repr

/-- The `switch response.Header.Get("Content-Encoding")` of `ServeHTTP`.
`gzipHeaderOk` abstracts whether `gzip.NewReader` succeeds on the
buffered bytes (it reads the gzip header eagerly); on failure the error
is only logged and the reader stays nil. -/
def selectReader (gzipHeaderOk : List Nat → Bool) (encoding : String)
    (buf : List Nat) : BodyReader :=
  if encoding = "br" then .brotli buf
  else if encoding = "gzip" then
    if gzipHeaderOk buf then .gzip buf else .nilReader
  else .buffer buf

/-- Draining a `BodyReader`, with the decompressors abstracted
(`gunzipBytes`, `brotliBytes`); reading the nil reader panics (`none`). -/
def readAll (gunzipBytes brotliBytes : List Nat → List Nat) :
    BodyReader → Option (List Nat)
  | .buffer d => some d
  | .gzip d => some (gunzipBytes d)
  | .brotli d => some (brotliBytes d)
  | .nilReader => none

/-- The `core.RequestHeader` snapshot as filled by `ServeHTTP` from the adapted request. -/
structure RequestHeader where
  host : String
  requestURI : String
  method : String
  userAgent : String
  contentType : String
  connectionClose : Bool
  https : Bool
deriving DecidableEq, Repr

/-- The `core.ResponseHeader` snapshot as filled by `ServeHTTP`. -/
structure ResponseHeader where
  contentType : String
deriving DecidableEq, Repr

/-- The `core.Context` value, the exchange context passed to `p.execute.Handler`. -/
structure Context where
  requestHeader : RequestHeader
  responseHeader : ResponseHeader
  responseBody : BodyReader
deriving DecidableEq, Repr

/-- A buffer-pool event of the request lifecycle: `BufferPool4k.Get()`
or `BufferPool4k.Put(buffer)`. -/
inductive PoolEvent where
  | acquire
  | release
deriving DecidableEq, Repr

/-- What the client connection sees: an `http.Error` reply, a normal
reply with re-emitted headers and streamed body bytes, or a panic. -/
inductive ClientReply where
  | errorReply (status : Nat) (body : String)
  | success (headers : List (String × String)) (body : List Nat)
  | panicked
deriving DecidableEq, Repr

/-- Go `http.StatusInternalServerError`. -/
def statusInternalServerError : Nat := 500

/-- The observable outcome of one `ServeHTTP` call: the client reply,
the exchange context handed to `p.execute.Handler` (none when the
handler was never invoked), and the pool events that occurred. -/
structure ServeResult where
  reply : ClientReply
  handlerCtx : Option Context
  poolEvents : List PoolEvent
deriving DecidableEq, Repr

/-- Go `(*HttpProxy).ServeHTTP`: adapt the request (500 + error text on
failure), dispatch upstream (`client.Do`, given as `upstream`; 500 +
error text on failure), re-emit the response headers, acquire a 4K
pooled buffer, fan the body out to the client and the buffer, select
the decode reader over the buffered copy, build the exchange context,
invoke the handler, and release the buffer. -/
def serveHTTP (gzipHeaderOk : List Nat → Bool) (r : Request)
    (resolve : Except String (List String))
    (upstream : Request → Except String UpstreamResponse) : ServeResult :=
  match modifyRequest r resolve with
  | .panic => ⟨.panicked, none, []⟩
  | .err msg => ⟨.errorReply statusInternalServerError msg, none, []⟩
  | .ok req =>
      match upstream req with
      | .error e => ⟨.errorReply statusInternalServerError e, none, []⟩
      | .ok response =>
          match emitHeaders response.headers with
          | none => ⟨.panicked, none, []⟩
          | some emitted =>
              let buf := response.body
              let encoding := headerGet response.headers "Content-Encoding"
              let reader := selectReader gzipHeaderOk encoding buf
              let reqHeader : RequestHeader :=
                { host := req.host
                  requestURI := req.url.pathQuery
                  method := req.method
                  userAgent := req.userAgent
                  contentType := req.contentType
                  connectionClose := req.connectionHeader = "close"
                  https := req.url.scheme = "https" }
              let resHeader : ResponseHeader :=
                { contentType := headerGet response.headers "Content-Type" }
              let ctx : Context := ⟨reqHeader, resHeader, reader⟩
              ⟨.success emitted response.body, some ctx,
                [PoolEvent.acquire, PoolEvent.release]⟩

/-- Go `NewHttpProxy`: builds the proxy value, acquiring one buffer from
`BufferPool4k` into the `buffer` field.  Returns the stored buffer, the
pool state afterwards, and the pool events of construction — the
constructor contains no `Put`, so the only event is the acquire. -/
def newHttpProxy (pool4k : Core.BufferPool) :
    Core.Buffer × Core.BufferPool × List PoolEvent :=
  let r := pool4k.Get
  (r.1, r.2, [PoolEvent.acquire])

end Proxy

/-! Concrete sample inputs used by witness theorems. -/

/-- A sample inbound request over TLS. -/
def sampleReq : Proxy.Request :=
  { host := "example.com"
    url := { scheme := "", host := "example.com", pathQuery := "/index" }
    requestURI := "/index"
    tls := true
    method := "GET"
    userAgent := "ua"
    contentType := "text/plain"
    connectionHeader := "" }

/-- The request `sampleReq` adapts to when the resolver returns
`["10.0.0.1:80", "10.0.0.2:80"]`. -/
def sampleAdapted : Proxy.Request :=
  { sampleReq with
      url := { sampleReq.url with scheme := "https", host := "10.0.0.1:80" }
      requestURI := "" }

/-- A sample upstream response declaring gzip encoding. -/
def sampleResp : Proxy.UpstreamResponse :=
  { headers := [("Content-Encoding", ["gzip"]), ("Content-Type", ["text/html"])]
    body := [31, 139, 0, 7] }

/-- C1: the claim says an empty successful resolver result is validated and
adaptation fails with a ResolutionError; the code instead evaluates `ips[0]`
on the empty slice, an index-out-of-range panic, for every inbound request. -/
theorem c1_empty_resolution_panics (r : Proxy.Request) :
    Proxy.modifyRequest r (Except.ok []) = Proxy.AdaptResult.panic := rfl

/-- C2: over every size class and every interleaving of pool operations,
every acquired buffer and every pooled buffer has zero logical length,
release truncates to zero while retaining capacity, and acquire on an
empty pool falls back to a fresh zero-length buffer of the class size. -/
theorem c2_pool_acquire_zero_length (size : Nat) (ops : List Core.PoolOp) :
    (∀ b ∈ (Core.runPool (Core.NewBufferPool size) ops).1, b.len = 0) ∧
    (∀ b ∈ (Core.runPool (Core.NewBufferPool size) ops).2.pool, b.len = 0) ∧
    (∀ b : Core.Buffer, (Core.Buffer.reset b).len = 0 ∧ (Core.Buffer.reset b).cap = b.cap) ∧
    (∀ p : Core.BufferPool, p.pool = [] → p.Get = (Core.makeBuffer p.size, p)) ∧
    Core.makeBuffer size = ⟨0, size⟩ := by
  have h := Core.runPool_len_zero ops (Core.NewBufferPool size) (Core.poolZeroed_new size)
  refine ⟨h.1, h.2, ?_, ?_, rfl⟩
  · intro b; exact ⟨rfl, rfl⟩
  · intro p hp
    unfold Core.BufferPool.Get
    rw [hp]

/-- Witness for C2 at size class 1024 and the interleaving
put ⟨5, 7⟩; get, whose get returns the truncated buffer ⟨0, 7⟩. -/
theorem c2_pool_acquire_zero_length_witness : (Core.Buffer.mk 0 7).len = 0 :=
  (c2_pool_acquire_zero_length 1024
      [Core.PoolOp.put (some ⟨5, 7⟩), Core.PoolOp.get]).1 ⟨0, 7⟩ (by decide)

/-- C3: the claim says every pooled buffer the proxy acquires is released
exactly once with none leaked; `ServeHTTP`'s pool events are indeed balanced
on every path, but `NewHttpProxy` acquires a buffer into the `buffer` field
that is never released — one acquire and zero releases. -/
theorem c3_constructor_buffer_leaked (pool : Core.BufferPool)
    (gz : List Nat → Bool) (r : Proxy.Request)
    (resolve : Except String (List String))
    (upstream : Proxy.Request → Except String Proxy.UpstreamResponse) :
    ((Proxy.newHttpProxy pool).2.2.count Proxy.PoolEvent.acquire = 1 ∧
     (Proxy.newHttpProxy pool).2.2.count Proxy.PoolEvent.release = 0) ∧
    ((Proxy.serveHTTP gz r resolve upstream).poolEvents.count Proxy.PoolEvent.acquire =
     (Proxy.serveHTTP gz r resolve upstream).poolEvents.count Proxy.PoolEvent.release) := by
  refine ⟨⟨rfl, rfl⟩, ?_⟩
  cases hm : Proxy.modifyRequest r resolve with
  | panic => simp [Proxy.serveHTTP, hm]
  | err msg => simp [Proxy.serveHTTP, hm]
  | ok req =>
      cases hu : upstream req with
      | error e => simp [Proxy.serveHTTP, hm, hu]
      | ok response =>
          cases he : Proxy.emitHeaders response.headers with
          | none => simp [Proxy.serveHTTP, hm, hu, he]
          | some emitted => simp [Proxy.serveHTTP, hm, hu, he]

/-- C4: for every adaptation that succeeds, the outbound scheme is `https`
exactly when the inbound connection carried TLS, and `http` otherwise. -/
theorem c4_scheme_https_iff_tls (r req : Proxy.Request)
    (resolve : Except String (List String))
    (h : Proxy.modifyRequest r resolve = Proxy.AdaptResult.ok req) :
    req.url.scheme = (if r.tls then "https" else "http") ∧
    (req.url.scheme = "https" ↔ r.tls = true) := by
  cases resolve with
  | error e => simp [Proxy.modifyRequest] at h
  | ok ips =>
      cases ips with
      | nil => simp [Proxy.modifyRequest] at h
      | cons ip rest =>
          have hreq : req = { r with
              url := { r.url with scheme := if r.tls then "https" else "http",
                                  host := ip },
              requestURI := "" } := by
            simpa [Proxy.modifyRequest] using h.symm
          subst hreq
          cases htls : r.tls with
          | true => exact ⟨by simp, by simp⟩
          | false => exact ⟨by simp, by simp⟩

/-- Witness for C4: `sampleReq` over TLS with resolver result
`["10.0.0.1:80", "10.0.0.2:80"]` adapts to scheme `https`. -/
theorem c4_scheme_https_iff_tls_witness :
    sampleAdapted.url.scheme = (if sampleReq.tls then "https" else "http") ∧
    (sampleAdapted.url.scheme = "https" ↔ sampleReq.tls = true) :=
  c4_scheme_https_iff_tls sampleReq sampleAdapted
    (Except.ok ["10.0.0.1:80", "10.0.0.2:80"]) rfl

/-- C5: a non-empty resolver result makes adaptation succeed with the first
address as the outbound authority, and the addresses beyond index zero never
influence the adapted request. -/
theorem c5_first_address_authority (r : Proxy.Request) (ip : String)
    (rest rest2 : List String) :
    (∃ req, Proxy.modifyRequest r (Except.ok (ip :: rest)) = Proxy.AdaptResult.ok req ∧
       req.url.host = ip) ∧
    Proxy.modifyRequest r (Except.ok (ip :: rest)) =
      Proxy.modifyRequest r (Except.ok (ip :: rest2)) :=
  ⟨⟨_, rfl, rfl⟩, rfl⟩

/-- C6: when resolution fails, the engine replies with status 500 and the
wrapped error text as body, no handler is invoked, and no pool event —
in particular no buffer acquisition — occurs. -/
theorem c6_resolution_failure_500_no_buffer (gz : List Nat → Bool)
    (r : Proxy.Request) (e : String)
    (upstream : Proxy.Request → Except String Proxy.UpstreamResponse) :
    Proxy.serveHTTP gz r (Except.error e) upstream =
      ⟨Proxy.ClientReply.errorReply Proxy.statusInternalServerError
         (Proxy.resolverErrMsg r.host e), none, []⟩ ∧
    Proxy.statusInternalServerError = 500 :=
  ⟨rfl, rfl⟩

/-- C7: a response header with exactly one value is re-emitted verbatim, and
one with two or more values is re-emitted as the separator-free concatenation
of its values; in particular `X-Trace: ["a", "b"]` becomes `"ab"`. -/
theorem c7_header_concatenation (a : String) (v : List String)
    (h : 2 ≤ v.length) :
    Proxy.emitHeaderValue [a] = some a ∧
    Proxy.emitHeaderValue v = some (String.join v) ∧
    Proxy.emitHeaderValue ["a", "b"] = some "ab" := by
  refine ⟨rfl, ?_, rfl⟩
  unfold Proxy.emitHeaderValue
  rw [if_neg (by omega)]

/-- Witness for C7 at the single value `"x"` and value list `["a", "b"]`. -/
theorem c7_header_concatenation_witness :
    Proxy.emitHeaderValue ["x"] = some "x" ∧
    Proxy.emitHeaderValue ["a", "b"] = some (String.join ["a", "b"]) ∧
    Proxy.emitHeaderValue ["a", "b"] = some "ab" :=
  c7_header_concatenation "x" ["a", "b"] (by decide)

/-- C8: for every content-encoding token other than `br` and `gzip` — which
covers `identity`, an absent header (`""`) and every unrecognized token —
the selected reader is the buffer itself and draining it yields exactly the
buffered input bytes. -/
theorem c8_identity_passthrough (gz : List Nat → Bool)
    (gunzipBytes brotliBytes : List Nat → List Nat)
    (enc : String) (buf : List Nat)
    (h1 : enc ≠ "br") (h2 : enc ≠ "gzip") :
    Proxy.selectReader gz enc buf = Proxy.BodyReader.buffer buf ∧
    Proxy.readAll gunzipBytes brotliBytes (Proxy.selectReader gz enc buf) =
      some buf := by
  have hsel : Proxy.selectReader gz enc buf = Proxy.BodyReader.buffer buf := by
    unfold Proxy.selectReader
    rw [if_neg h1, if_neg h2]
  exact ⟨hsel, by rw [hsel]; rfl⟩

/-- Witness for C8 at the tokens `identity` and `""` (absent header). -/
theorem c8_identity_passthrough_witness :
    (Proxy.selectReader (fun _ => true) "identity" [1, 2] =
        Proxy.BodyReader.buffer [1, 2] ∧
      Proxy.readAll id id (Proxy.selectReader (fun _ => true) "identity" [1, 2]) =
        some [1, 2]) ∧
    (Proxy.selectReader (fun _ => true) "" [3] = Proxy.BodyReader.buffer [3] ∧
      Proxy.readAll id id (Proxy.selectReader (fun _ => true) "" [3]) = some [3]) :=
  ⟨c8_identity_passthrough (fun _ => true) id id "identity" [1, 2]
      (by decide) (by decide),
    c8_identity_passthrough (fun _ => true) id id "" [3] (by decide) (by decide)⟩

/-- Helper: the full observable outcome of `ServeHTTP` on the success path,
with the exchange context spelled out. -/
theorem serveHTTP_success (gz : List Nat → Bool) (r req : Proxy.Request)
    (resolve : Except String (List String))
    (upstream : Proxy.Request → Except String Proxy.UpstreamResponse)
    (response : Proxy.UpstreamResponse) (emitted : List (String × String))
    (hmod : Proxy.modifyRequest r resolve = Proxy.AdaptResult.ok req)
    (hup : upstream req = Except.ok response)
    (hemit : Proxy.emitHeaders response.headers = some emitted) :
    Proxy.serveHTTP gz r resolve upstream =
      ⟨Proxy.ClientReply.success emitted response.body,
        some ⟨{ host := req.host
                requestURI := req.url.pathQuery
                method := req.method
                userAgent := req.userAgent
                contentType := req.contentType
                connectionClose := req.connectionHeader = "close"
                https := req.url.scheme = "https" },
              { contentType := Proxy.headerGet response.headers "Content-Type" },
              Proxy.selectReader gz
                (Proxy.headerGet response.headers "Content-Encoding") response.body⟩,
        [Proxy.PoolEvent.acquire, Proxy.PoolEvent.release]⟩ := by
  simp [Proxy.serveHTTP, hmod, hup, hemit]

/-- C9: whenever adaptation and dispatch succeed and header re-emission does
not panic, the body bytes delivered to the client are exactly the upstream's
raw body bytes — for every content-encoding and every outcome of gzip reader
construction (`gz` is universally quantified), since decoding only reads the
buffered copy. -/
theorem c9_client_bytes_identical (gz : List Nat → Bool) (r req : Proxy.Request)
    (resolve : Except String (List String))
    (upstream : Proxy.Request → Except String Proxy.UpstreamResponse)
    (response : Proxy.UpstreamResponse) (emitted : List (String × String))
    (hmod : Proxy.modifyRequest r resolve = Proxy.AdaptResult.ok req)
    (hup : upstream req = Except.ok response)
    (hemit : Proxy.emitHeaders response.headers = some emitted) :
    (Proxy.serveHTTP gz r resolve upstream).reply =
      Proxy.ClientReply.success emitted response.body := by
  simp [Proxy.serveHTTP, hmod, hup, hemit]

/-- Witness for C9: a gzip-declared response whose reader construction fails
(`fun _ => false`) still delivers the raw bytes `[31, 139, 0, 7]`. -/
theorem c9_client_bytes_identical_witness :
    (Proxy.serveHTTP (fun _ => false) sampleReq
        (Except.ok ["10.0.0.1:80", "10.0.0.2:80"])
        (fun _ => Except.ok sampleResp)).reply =
      Proxy.ClientReply.success
        [("Content-Encoding", "gzip"), ("Content-Type", "text/html")]
        [31, 139, 0, 7] :=
  c9_client_bytes_identical (fun _ => false) sampleReq sampleAdapted
    (Except.ok ["10.0.0.1:80", "10.0.0.2:80"]) (fun _ => Except.ok sampleResp)
    sampleResp [("Content-Encoding", "gzip"), ("Content-Type", "text/html")]
    rfl rfl rfl

/-- C10: when the response declares `gzip` but gzip reader construction fails
on the buffered bytes, the handler is still invoked, and the exchange context
it receives carries the nil reader — draining it panics (`none`), so it is
neither the raw compressed bytes nor an empty readable stream. -/
theorem c10_gzip_failure_nil_reader (gz : List Nat → Bool) (r req : Proxy.Request)
    (resolve : Except String (List String))
    (upstream : Proxy.Request → Except String Proxy.UpstreamResponse)
    (response : Proxy.UpstreamResponse) (emitted : List (String × String))
    (hmod : Proxy.modifyRequest r resolve = Proxy.AdaptResult.ok req)
    (hup : upstream req = Except.ok response)
    (hemit : Proxy.emitHeaders response.headers = some emitted)
    (henc : Proxy.headerGet response.headers "Content-Encoding" = "gzip")
    (hfail : gz response.body = false) :
    ∃ ctx, (Proxy.serveHTTP gz r resolve upstream).handlerCtx = some ctx ∧
      ctx.responseBody = Proxy.BodyReader.nilReader ∧
      ∀ g b : List Nat → List Nat, Proxy.readAll g b ctx.responseBody = none := by
  have hsel : Proxy.selectReader gz
      (Proxy.headerGet response.headers "Content-Encoding") response.body =
      Proxy.BodyReader.nilReader := by
    rw [henc]
    unfold Proxy.selectReader
    rw [if_neg (by decide), if_pos rfl, hfail]
    rfl
  refine ⟨⟨⟨req.host, req.url.pathQuery, req.method, req.userAgent,
      req.contentType, req.connectionHeader = "close", req.url.scheme = "https"⟩,
      ⟨Proxy.headerGet response.headers "Content-Type"⟩,
      Proxy.BodyReader.nilReader⟩, ?_, rfl, fun g b => rfl⟩
  rw [serveHTTP_success gz r req resolve upstream response emitted hmod hup hemit,
    hsel]

/-- Witness for C10: the gzip-declared `sampleResp` with failing reader
construction hands the handler a context whose body reader is nil. -/
theorem c10_gzip_failure_nil_reader_witness :
    ∃ ctx, (Proxy.serveHTTP (fun _ => false) sampleReq
        (Except.ok ["10.0.0.1:80", "10.0.0.2:80"])
        (fun _ => Except.ok sampleResp)).handlerCtx = some ctx ∧
      ctx.responseBody = Proxy.BodyReader.nilReader ∧
      ∀ g b : List Nat → List Nat, Proxy.readAll g b ctx.responseBody = none :=
  c10_gzip_failure_nil_reader (fun _ => false) sampleReq sampleAdapted
    (Except.ok ["10.0.0.1:80", "10.0.0.2:80"]) (fun _ => Except.ok sampleResp)
    sampleResp [("Content-Encoding", "gzip"), ("Content-Type", "text/html")]
    rfl rfl rfl rfl rfl
